import Mathlib

/-!
Shallow embedding of the two notebooks of this repository.

The first notebook (the CPU/GPU comparison) builds two 5000 by 5000 random
matrices, defines `measure_time`, which binds a device, reads the wall
clock, runs `tf.matmul`, forces the result with `.numpy()`, reads the
clock again and returns the difference, and then runs the comparison
steps 4, 5 and 6, printing formatted timing lines.

The second notebook (`gpu_optimization.ipynb`) defines two CUDA kernels,
`matrix_add_unoptimized` and `matrix_add_shared_memory`, and launches
them with grid size `(N + block_size - 1) / block_size` over arrays of
length `N = 1024 * 1024`, with block size 256 in steps 1 and 2 and block
size 512 in step 3.

Numeric values are modelled as rationals; device memory as lists; an
out-of-bounds access is an explicit error value of the execution monad.
-/

namespace TfBenchmark

/-- Modelled from the spec: the failure condition raised when the device
selector names a device that is not present.  The notebook's underlying
library (TensorFlow) is not part of this repository; the spec's error
taxonomy names this condition `DeviceUnavailable`. -/
inductive TfError
  | DeviceUnavailable
deriving DecidableEq

/-- Events of a `measure_time` call, in the order they happen:
device binding, a clock reading (with its index and value), the matmul
invocation, the forced materialization of the result (carrying the
materialized value), and — never inside `measure_time` — the random
generation of the input matrices performed by Step 3 of the notebook. -/
inductive TfEv
  | deviceBind (d : String)
  | clockRead (k : Nat) (v : ℚ)
  | invokeMatmul
  | materialize (r : List (List ℚ))
  | genInputs
deriving DecidableEq

/-- Dot product of two rows, used by the matrix product. -/
def dotProd (u v : List ℚ) : ℚ := (List.zipWith (fun x y => x * y) u v).sum

/-- The `tf.matmul(A, B)` call of `measure_time`, on rationals. -/
def matmul (A B : List (List ℚ)) : List (List ℚ) :=
  A.map (fun row => (List.range (B.headD []).length).map
    (fun j => dotProd row (B.map (fun r => r.getD j 0))))

/-- Ambient state of the first notebook: the devices the platform
reports as present, the successive readings of `time.time()` (reading
index to value, in seconds), and the two module-level matrices `A` and
`B` generated by Step 3. -/
structure TfEnv where
  availableDevices : List String
  clock : Nat → ℚ
  A : List (List ℚ)
  B : List (List ℚ)

/-- The `measure_time` function of the first notebook: bind the device,
read the clock, run `tf.matmul(A, B)`, force the result, read the clock
again, and return the difference together with the event trace.
Binding a device that is not present fails with `DeviceUnavailable`
(modelled from the spec: the device-binding failure is raised by the
external library, which is not part of this repository). -/
def measure_time (env : TfEnv) (device_name : String) : Except TfError (ℚ × List TfEv) :=
  if device_name ∈ env.availableDevices then
    let start_time := env.clock 0
    let result := matmul env.A env.B
    let end_time := env.clock 1
    Except.ok (end_time - start_time,
      [TfEv.deviceBind device_name, TfEv.clockRead 0 start_time, TfEv.invokeMatmul,
       TfEv.materialize result, TfEv.clockRead 1 end_time])
  else
    Except.error TfError.DeviceUnavailable

/-- Step 3 of the notebook generates the random input matrices `A` and
`B`; this happens before any `measure_time` call. -/
def step3Events : List TfEv := [TfEv.genInputs]

/-- Python's fixed-point formatting with two decimal places, as used by
`f"{x:.2f}"` in Step 6: sign, integer part, a decimal point, and exactly
two digit characters. -/
def format2f (q : ℚ) : String :=
  (if round (q * 100) < 0 then "-" else "") ++
    toString ((round (q * 100)).natAbs / 100) ++ "." ++
    String.mk [Nat.digitChar ((round (q * 100)).natAbs / 10 % 10),
               Nat.digitChar ((round (q * 100)).natAbs % 10)]

/-- Python's fixed-point formatting with four decimal places, as used by
`f"{t:.4f}"` in Steps 4, 5 and 6. -/
def format4f (q : ℚ) : String :=
  (if round (q * 10000) < 0 then "-" else "") ++
    toString ((round (q * 10000)).natAbs / 10000) ++ "." ++
    String.mk [Nat.digitChar ((round (q * 10000)).natAbs / 1000 % 10),
               Nat.digitChar ((round (q * 10000)).natAbs / 100 % 10),
               Nat.digitChar ((round (q * 10000)).natAbs / 10 % 10),
               Nat.digitChar ((round (q * 10000)).natAbs % 10)]

/-- Observable events of the notebook's comparison steps: a `print`
call with its argument, or an invocation of `measure_time` with its
device selector. -/
inductive NbEv
  | printLine (s : String)
  | timingCall (d : String)
deriving DecidableEq

/-- Splitting a character stream at newline characters, accumulating
the current line in reverse. -/
def splitLinesAux : List Char → List Char → List String
  | [], acc => [String.mk acc.reverse]
  | ch :: rest, acc =>
      if ch = '\n' then String.mk acc.reverse :: splitLinesAux rest []
      else splitLinesAux rest (ch :: acc)

/-- The lines a single `print` call produces: its argument split at its
embedded newlines. -/
def printedLines (s : String) : List String := splitLinesAux s.data []

/-- The lines a sequence of `print` calls writes to standard output. -/
def outputLines (evs : List NbEv) : List String :=
  (evs.map (fun e => match e with
    | NbEv.printLine s => printedLines s
    | NbEv.timingCall _ => [])).flatten

/-- Step 4 of the notebook: announce the CPU run, time it, print the
elapsed time with four decimal places. -/
def step4Events (cpu_time : ℚ) : List NbEv :=
  [NbEv.printLine "\nPerforming computation on CPU...",
   NbEv.timingCall "/CPU:0",
   NbEv.printLine ("Time taken on CPU: " ++ format4f cpu_time ++ " seconds")]

/-- Step 5 of the notebook: if a GPU is reported present, announce the
GPU run, time it and print the elapsed time; otherwise print the skip
message and perform no timing call. -/
def step5Events (gpuAvailable : Bool) (gpu_time : ℚ) : List NbEv :=
  if gpuAvailable then
    [NbEv.printLine "\nPerforming computation on GPU...",
     NbEv.timingCall "/GPU:0",
     NbEv.printLine ("Time taken on GPU: " ++ format4f gpu_time ++ " seconds")]
  else
    [NbEv.printLine "\nNo GPU available. Skipping GPU computation."]

/-- Step 6 of the notebook: if a GPU is reported present, print both
times again and the speedup ratio `cpu_time / gpu_time` with two
decimal places; otherwise print that the comparison is unavailable. -/
def step6Events (gpuAvailable : Bool) (cpu_time gpu_time : ℚ) : List NbEv :=
  if gpuAvailable then
    [NbEv.printLine "\nComparison:",
     NbEv.printLine ("CPU time: " ++ format4f cpu_time ++ " seconds"),
     NbEv.printLine ("GPU time: " ++ format4f gpu_time ++ " seconds"),
     NbEv.printLine ("Speedup: " ++ format2f (cpu_time / gpu_time) ++ "x faster on GPU!")]
  else
    [NbEv.printLine "\nComparison not available as no GPU is detected."]

/-- The comparison steps of the notebook run top to bottom: Step 4,
then Step 5, then Step 6. -/
def tfNotebook (gpuAvailable : Bool) (cpu_time gpu_time : ℚ) : List NbEv :=
  step4Events cpu_time ++ step5Events gpuAvailable gpu_time ++
    step6Events gpuAvailable cpu_time gpu_time

/-- Concrete environment whose wall clock steps backwards between the
two readings of a `measure_time` call (Python's `time.time()` is the
system wall clock and may be adjusted backwards). -/
def envBackward : TfEnv :=
  { availableDevices := ["/CPU:0"]
    clock := fun k => if k = 0 then 10 else 5
    A := [[1]]
    B := [[1]] }

/-- Concrete environment with a well-behaved (non-decreasing) clock. -/
def envForward : TfEnv :=
  { availableDevices := ["/CPU:0"]
    clock := fun k => (k : ℚ)
    A := [[1]]
    B := [[1]] }

end TfBenchmark

namespace Cuda

/-- Failure conditions of a kernel launch.  `OutOfBoundsAccess` models a
device-memory or shared-memory access outside the accessed array (in
real CUDA this is undefined behavior).  `ShapeMismatch` is the error
the spec's taxonomy prescribes for incompatible operand shapes; nothing
in the notebook's code ever raises it. -/
inductive GpuError
  | OutOfBoundsAccess
  | ShapeMismatch
deriving DecidableEq

/-- Execution monad of the kernels: a result or a `GpuError`. -/
abbrev GpuM := Except GpuError

/-- Device memory of the second notebook: the operand buffers `a_gpu`
and `b_gpu` and the output buffer `c_gpu`. -/
@[ext]
structure Mem where
  a : List ℚ
  b : List ℚ
  c : List ℚ
deriving DecidableEq

/-- Writing `c[i] = v`: an error when `i` is outside the buffer. -/
def writeC (m : Mem) (i : Nat) (v : ℚ) : GpuM Mem :=
  if i < m.c.length then Except.ok { m with c := m.c.set i v }
  else Except.error GpuError.OutOfBoundsAccess

/-- One thread of the `matrix_add_unoptimized` kernel:
`gid = blockIdx.x * blockDim.x + threadIdx.x;
if (gid < N) c[gid] = a[gid] + b[gid];`.
Any access outside a buffer is an out-of-bounds error. -/
def matrix_add_unoptimized (N blockDim blockIdx tid : Nat) (m : Mem) : GpuM Mem :=
  let gid := blockIdx * blockDim + tid
  if gid < N then
    match m.a.get? gid, m.b.get? gid with
    | some x, some y => writeC m gid (x + y)
    | _, _ => Except.error GpuError.OutOfBoundsAccess
  else Except.ok m

/-- One block of the unoptimized launch: threads `0, …, blockDim - 1`. -/
def runUnoptBlock (N blockDim blockIdx : Nat) (m : Mem) : GpuM Mem :=
  (List.range blockDim).foldlM (fun s t => matrix_add_unoptimized N blockDim blockIdx t s) m

/-- The full launch
`matrix_add_unoptimized(a_gpu, b_gpu, c_gpu, N, block=(blockDim,1,1), grid=(gridSize,1))`:
blocks `0, …, gridSize - 1`, each of `blockDim` threads. -/
def launchUnopt (N blockDim gridSize : Nat) (m : Mem) : GpuM Mem :=
  (List.range gridSize).foldlM (fun s b => runUnoptBlock N blockDim b s) m

/-- The declared size of the kernel's shared arrays:
`__shared__ float shared_a[256]; __shared__ float shared_b[256];`. -/
def sharedDecl : Nat := 256

/-- Block-local shared memory of `matrix_add_shared_memory`. -/
structure Shared where
  shared_a : List ℚ
  shared_b : List ℚ
deriving DecidableEq

/-- The load phase of one thread of `matrix_add_shared_memory` (the part
before `__syncthreads()`): if `gid < N`, read `a[gid]` and `b[gid]` and
write them to `shared_a[tid]` and `shared_b[tid]`.  A shared-memory
index at or beyond the array's declared size is an out-of-bounds
error. -/
def matrix_add_shared_memory_load (N blockDim blockIdx tid : Nat) (m : Mem) (sh : Shared) :
    GpuM Shared :=
  let gid := blockIdx * blockDim + tid
  if gid < N then
    match m.a.get? gid, m.b.get? gid with
    | some x, some y =>
        if tid < sh.shared_a.length ∧ tid < sh.shared_b.length then
          Except.ok ⟨sh.shared_a.set tid x, sh.shared_b.set tid y⟩
        else Except.error GpuError.OutOfBoundsAccess
    | _, _ => Except.error GpuError.OutOfBoundsAccess
  else Except.ok sh

/-- The store phase of one thread of `matrix_add_shared_memory` (the
part after `__syncthreads()`): if `gid < N`, read `shared_a[tid]` and
`shared_b[tid]` and write their sum to `c[gid]`. -/
def matrix_add_shared_memory_store (N blockDim blockIdx tid : Nat) (sh : Shared) (m : Mem) :
    GpuM Mem :=
  let gid := blockIdx * blockDim + tid
  if gid < N then
    match sh.shared_a.get? tid, sh.shared_b.get? tid with
    | some x, some y => writeC m gid (x + y)
    | _, _ => Except.error GpuError.OutOfBoundsAccess
  else Except.ok m

/-- One block of the shared-memory launch: all threads run the load
phase, `__syncthreads()` makes the loaded values visible, then all
threads run the store phase. -/
def runSharedBlock (N blockDim blockIdx : Nat) (m : Mem) : GpuM Mem :=
  match (List.range blockDim).foldlM
      (fun s t => matrix_add_shared_memory_load N blockDim blockIdx t m s)
      ⟨List.replicate sharedDecl 0, List.replicate sharedDecl 0⟩ with
  | Except.ok sh =>
      (List.range blockDim).foldlM
        (fun s t => matrix_add_shared_memory_store N blockDim blockIdx t sh s) m
  | Except.error e => Except.error e

/-- The full launch of `matrix_add_shared_memory`. -/
def launchShared (N blockDim gridSize : Nat) (m : Mem) : GpuM Mem :=
  (List.range gridSize).foldlM (fun s b => runSharedBlock N blockDim b s) m

/-- The array length of the notebook: `N = 1024 * 1024`. -/
def notebookN : Nat := 1024 * 1024

/-- The set of threads of a launch that write output index `i`: a
thread `(blockIdx, tid)` of the grid whose global id is `i`, provided
the kernel's `gid < N` guard lets it write. -/
def writerSet (N blockDim gridSize i : Nat) : Finset (Nat × Nat) :=
  (Finset.range gridSize ×ˢ Finset.range blockDim).filter
    (fun th => th.1 * blockDim + th.2 = i ∧ i < N)

/-- The device-memory indices one thread of `matrix_add_unoptimized`
reads or writes: its global id when the `gid < N` guard passes, nothing
otherwise. -/
def threadAccesses (N blockDim blockIdx tid : Nat) : List Nat :=
  if blockIdx * blockDim + tid < N then [blockIdx * blockDim + tid] else []

/-- The expected value of `c[i]` after an element-wise add. -/
def addAt (A B : List ℚ) (i : Nat) : ℚ := A.getD i 0 + B.getD i 0

/-- Correctness specification of a kernel-launch fragment `F` over
fixed operand buffers `A` and `B`: run from any memory holding `A` and
`B` with an output buffer of length `N`, it succeeds, leaves the
operands untouched, writes `A[i] + B[i]` to every output index `i < N`
selected by `R`, and leaves every other output index unchanged. -/
def KSpec (N : Nat) (A B : List ℚ) (R : Nat → Prop) (F : Mem → GpuM Mem) : Prop :=
  ∀ m : Mem, m.a = A → m.b = B → m.c.length = N →
    ∃ mf : Mem, F m = Except.ok mf ∧ mf.a = A ∧ mf.b = B ∧ mf.c.length = N ∧
      (∀ i, i < N → R i → mf.c.get? i = some (addAt A B i)) ∧
      (∀ i, ¬ (i < N ∧ R i) → mf.c.get? i = m.c.get? i)

end Cuda

namespace TfBenchmark

theorem digitChar_isDigit (k : Nat) (hk : k < 10) : (Nat.digitChar k).isDigit = true := by
  interval_cases k <;> decide

/-- C1 (counterexample): the clock of `measure_time` is `time.time()`,
the system wall clock, which is not monotonic; on an environment whose
second reading is smaller than the first, `measure_time` on an
available device returns a negative duration, so the claimed
unconditional non-negativity fails. -/
theorem measure_time_backward_clock_negative :
    ("/CPU:0" ∈ envBackward.availableDevices) ∧
    (measure_time envBackward "/CPU:0").toOption.map Prod.fst = some (-5 : ℚ) ∧
    ((-5 : ℚ) < 0) := by
  refine ⟨by decide, ?_, by norm_num⟩
  norm_num [measure_time, envBackward, Except.toOption]

/-- C1 (amended): whenever the two clock readings taken by
`measure_time` are non-decreasing — as a monotonic clock would
guarantee — a call on an available device returns a non-negative
duration in seconds. -/
theorem measure_time_nonneg_of_clock_monotone (env : TfEnv) (d : String)
    (hmono : env.clock 0 ≤ env.clock 1) (hd : d ∈ env.availableDevices) :
    ∃ q tr, measure_time env d = Except.ok (q, tr) ∧ 0 ≤ q := by
  refine ⟨env.clock 1 - env.clock 0,
    [TfEv.deviceBind d, TfEv.clockRead 0 (env.clock 0), TfEv.invokeMatmul,
     TfEv.materialize (matmul env.A env.B), TfEv.clockRead 1 (env.clock 1)],
    ?_, sub_nonneg.mpr hmono⟩
  unfold measure_time
  rw [if_pos hd]

/-- C1 (witness): the amended theorem applied to a concrete environment
with a non-decreasing clock. -/
theorem measure_time_nonneg_of_clock_monotone_witness :
    ∃ q tr, measure_time envForward "/CPU:0" = Except.ok (q, tr) ∧ 0 ≤ q :=
  measure_time_nonneg_of_clock_monotone envForward "/CPU:0" (by norm_num [envForward])
    (by decide)

/-- C2: when no GPU is reported, Step 5 prints exactly the skip message
`"No GPU available. Skipping GPU computation."` (preceded by the blank
line its leading newline produces) and performs no timing call: no
`measure_time` invocation occurs for any device selector. -/
theorem step5_gpu_absent_skips (gpu_time : ℚ) :
    step5Events false gpu_time
      = [NbEv.printLine "\nNo GPU available. Skipping GPU computation."] ∧
    (∀ d, NbEv.timingCall d ∉ step5Events false gpu_time) ∧
    outputLines (step5Events false gpu_time)
      = ["", "No GPU available. Skipping GPU computation."] := by
  refine ⟨rfl, ?_, ?_⟩
  · intro d h
    simp [step5Events] at h
  · show outputLines [NbEv.printLine "\nNo GPU available. Skipping GPU computation."]
        = ["", "No GPU available. Skipping GPU computation."]
    decide

/-- C2 (witness): the theorem applied at a concrete timing value. -/
theorem step5_gpu_absent_skips_witness :
    step5Events false 0
      = [NbEv.printLine "\nNo GPU available. Skipping GPU computation."] ∧
    (∀ d, NbEv.timingCall d ∉ step5Events false 0) ∧
    outputLines (step5Events false 0)
      = ["", "No GPU available. Skipping GPU computation."] :=
  step5_gpu_absent_skips 0

/-- C3: calling `measure_time` with a device selector naming an absent
device fails with `DeviceUnavailable` and returns no duration. -/
theorem measure_time_absent_device (env : TfEnv) (d : String)
    (hd : d ∉ env.availableDevices) :
    measure_time env d = Except.error TfError.DeviceUnavailable := by
  unfold measure_time
  rw [if_neg hd]

/-- C3 (witness): requesting the GPU on an environment that only has a
CPU aborts with `DeviceUnavailable`. -/
theorem measure_time_absent_device_witness :
    measure_time envForward "/GPU:0" = Except.error TfError.DeviceUnavailable :=
  measure_time_absent_device envForward "/GPU:0" (by decide)

/-- C5: on an available device the timed window of `measure_time` opens
with the first clock reading before the matmul invocation and closes
with the second reading only after the result is materialized, the
returned duration is exactly the difference of those two readings, and
the input generation of Step 3 happens outside the measured trace. -/
theorem measure_time_timed_window (env : TfEnv) (d : String)
    (hd : d ∈ env.availableDevices) :
    ∃ s e R, measure_time env d = Except.ok (e - s,
        [TfEv.deviceBind d, TfEv.clockRead 0 s, TfEv.invokeMatmul,
         TfEv.materialize R, TfEv.clockRead 1 e]) ∧
      s = env.clock 0 ∧ e = env.clock 1 ∧
      TfEv.genInputs ∉ [TfEv.deviceBind d, TfEv.clockRead 0 s, TfEv.invokeMatmul,
         TfEv.materialize R, TfEv.clockRead 1 e] ∧
      TfEv.genInputs ∈ step3Events := by
  refine ⟨env.clock 0, env.clock 1, matmul env.A env.B, ?_, rfl, rfl, by simp,
    by simp [step3Events]⟩
  unfold measure_time
  rw [if_pos hd]

/-- C5 (witness): the theorem applied to a concrete environment. -/
theorem measure_time_timed_window_witness :
    ∃ s e R, measure_time envForward "/CPU:0" = Except.ok (e - s,
        [TfEv.deviceBind "/CPU:0", TfEv.clockRead 0 s, TfEv.invokeMatmul,
         TfEv.materialize R, TfEv.clockRead 1 e]) ∧
      s = envForward.clock 0 ∧ e = envForward.clock 1 ∧
      TfEv.genInputs ∉ [TfEv.deviceBind "/CPU:0", TfEv.clockRead 0 s, TfEv.invokeMatmul,
         TfEv.materialize R, TfEv.clockRead 1 e] ∧
      TfEv.genInputs ∈ step3Events :=
  measure_time_timed_window envForward "/CPU:0" (by decide)

/-- C6: with a GPU present, the comparison prints the speedup line last,
after both timing calls; the printed value is `cpu_time / gpu_time`
rendered by the two-decimal formatter, whose output ends in a decimal
point followed by exactly two digit characters. -/
theorem step6_speedup_two_decimals (cpu_time gpu_time : ℚ) :
    tfNotebook true cpu_time gpu_time =
      [NbEv.printLine "\nPerforming computation on CPU...",
       NbEv.timingCall "/CPU:0",
       NbEv.printLine ("Time taken on CPU: " ++ format4f cpu_time ++ " seconds"),
       NbEv.printLine "\nPerforming computation on GPU...",
       NbEv.timingCall "/GPU:0",
       NbEv.printLine ("Time taken on GPU: " ++ format4f gpu_time ++ " seconds"),
       NbEv.printLine "\nComparison:",
       NbEv.printLine ("CPU time: " ++ format4f cpu_time ++ " seconds"),
       NbEv.printLine ("GPU time: " ++ format4f gpu_time ++ " seconds"),
       NbEv.printLine ("Speedup: " ++ format2f (cpu_time / gpu_time) ++ "x faster on GPU!")] ∧
    (tfNotebook true cpu_time gpu_time).getLast?
      = some (NbEv.printLine ("Speedup: " ++ format2f (cpu_time / gpu_time)
          ++ "x faster on GPU!")) ∧
    ∃ ip d1 d2, format2f (cpu_time / gpu_time) = ip ++ "." ++ String.mk [d1, d2] ∧
      (String.mk [d1, d2]).length = 2 ∧ d1.isDigit = true ∧ d2.isDigit = true := by
  refine ⟨rfl, rfl,
    (if round (cpu_time / gpu_time * 100) < 0 then "-" else "")
      ++ toString ((round (cpu_time / gpu_time * 100)).natAbs / 100), _, _, rfl, rfl,
    digitChar_isDigit _ (Nat.mod_lt _ (by norm_num)),
    digitChar_isDigit _ (Nat.mod_lt _ (by norm_num))⟩

/-- C6 (witness): the theorem applied at concrete timing values. -/
theorem step6_speedup_two_decimals_witness :
    (tfNotebook true 3 2).getLast?
      = some (NbEv.printLine ("Speedup: " ++ format2f ((3 : ℚ) / 2) ++ "x faster on GPU!")) ∧
    ∃ ip d1 d2, format2f ((3 : ℚ) / 2) = ip ++ "." ++ String.mk [d1, d2] ∧
      (String.mk [d1, d2]).length = 2 ∧ d1.isDigit = true ∧ d2.isDigit = true :=
  ⟨(step6_speedup_two_decimals 3 2).2.1, (step6_speedup_two_decimals 3 2).2.2⟩

end TfBenchmark

namespace Cuda

theorem gpum_bind_ok {α β : Type} (a : α) (g : α → GpuM β) :
    ((Except.ok a : GpuM α) >>= g) = g a := rfl

theorem gpum_bind_error {α β : Type} (e : GpuError) (g : α → GpuM β) :
    ((Except.error e : GpuM α) >>= g) = Except.error e := rfl

theorem list_get?_lt (l : List ℚ) (i : Nat) (h : i < l.length) :
    l.get? i = some (l.getD i 0) := by
  rw [List.get?_eq_get h, List.getD_eq_get?, List.get?_eq_get h]
  rfl

theorem foldlM_ok_pres {σ α : Type} (P : σ → Prop) (f : σ → α → GpuM σ)
    (hf : ∀ s x s2, P s → f s x = Except.ok s2 → P s2) :
    ∀ (ts : List α) (s0 s1 : σ), P s0 → ts.foldlM f s0 = Except.ok s1 → P s1 := by
  intro ts
  induction ts with
  | nil =>
    intro s0 s1 h0 hfold
    cases hfold
    exact h0
  | cons y ys ih =>
    intro s0 s1 h0 hfold
    rw [List.foldlM_cons] at hfold
    cases hy : f s0 y with
    | error e => rw [hy, gpum_bind_error] at hfold; cases hfold
    | ok s2 =>
      rw [hy, gpum_bind_ok] at hfold
      exact ih s2 s1 (hf s0 y s2 h0 hy) hfold

theorem foldlM_error_of_mem {σ α : Type} (P : σ → Prop) (f : σ → α → GpuM σ) (x : α)
    (e : GpuError)
    (hpres : ∀ s y s2, P s → f s y = Except.ok s2 → P s2)
    (herr : ∀ s y e2, P s → f s y = Except.error e2 → e2 = e)
    (hfail : ∀ s, P s → f s x = Except.error e) :
    ∀ (ts : List α) (s0 : σ), x ∈ ts → P s0 → ts.foldlM f s0 = Except.error e := by
  intro ts
  induction ts with
  | nil =>
    intro s0 hx
    exact absurd hx (List.not_mem_nil x)
  | cons y ys ih =>
    intro s0 hx h0
    rw [List.foldlM_cons]
    rcases List.mem_cons.mp hx with rfl | hx2
    · rw [hfail s0 h0, gpum_bind_error]
    · cases hy : f s0 y with
      | error e2 => rw [gpum_bind_error, herr s0 y e2 h0 hy]
      | ok s2 =>
        rw [gpum_bind_ok]
        exact ih s2 hx2 (hpres s0 y s2 h0 hy)

theorem foldlM_error_imp {σ α : Type} (f : σ → α → GpuM σ)
    (herr : ∀ s y e2, f s y = Except.error e2 → e2 = GpuError.OutOfBoundsAccess) :
    ∀ (ts : List α) (s0 : σ) (e : GpuError),
      ts.foldlM f s0 = Except.error e → e = GpuError.OutOfBoundsAccess := by
  intro ts
  induction ts with
  | nil =>
    intro s0 e hfold
    cases hfold
  | cons y ys ih =>
    intro s0 e hfold
    rw [List.foldlM_cons] at hfold
    cases hy : f s0 y with
    | error e2 =>
      rw [hy, gpum_bind_error] at hfold
      injection hfold with h
      subst h
      exact herr s0 y _ hy
    | ok s2 =>
      rw [hy, gpum_bind_ok] at hfold
      exact ih s2 e hfold

theorem kspec_foldlM {α : Type} (N : Nat) (A B : List ℚ) (R : α → Nat → Prop)
    (step : Mem → α → GpuM Mem) :
    ∀ ts : List α, (∀ x ∈ ts, KSpec N A B (R x) (fun m => step m x)) →
      KSpec N A B (fun i => ∃ x ∈ ts, R x i) (fun m => ts.foldlM step m) := by
  intro ts
  induction ts with
  | nil =>
    intro _ m hma hmb hmc
    refine ⟨m, rfl, hma, hmb, hmc, ?_, fun i _ => rfl⟩
    rintro i _ ⟨x, hx, _⟩
    exact absurd hx (List.not_mem_nil x)
  | cons y ys ih =>
    intro hsteps m hma hmb hmc
    obtain ⟨m1, hm1, h1a, h1b, h1c, h1v, h1f⟩ :=
      hsteps y (List.mem_cons_self y ys) m hma hmb hmc
    obtain ⟨m2, hm2, h2a, h2b, h2c, h2v, h2f⟩ :=
      ih (fun x hx => hsteps x (List.mem_cons_of_mem y hx)) m1 h1a h1b h1c
    have hm1b : step m y = Except.ok m1 := hm1
    have hm2b : List.foldlM step m1 ys = Except.ok m2 := hm2
    refine ⟨m2, ?_, h2a, h2b, h2c, ?_, ?_⟩
    · show List.foldlM step m (y :: ys) = Except.ok m2
      rw [List.foldlM_cons, hm1b, gpum_bind_ok]
      exact hm2b
    · intro i hi hR
      by_cases hys : ∃ x ∈ ys, R x i
      · exact h2v i hi hys
      · have hRy : R y i := by
          rcases hR with ⟨x, hx, hRx⟩
          rcases List.mem_cons.mp hx with rfl | hmem
          · exact hRx
          · exact absurd ⟨x, hmem, hRx⟩ hys
        rw [h2f i (fun hc => hys hc.2)]
        exact h1v i hi hRy
    · intro i hni
      have hniy : ¬ (i < N ∧ R y i) := by
        rintro ⟨hi, hRy⟩
        exact hni ⟨hi, y, List.mem_cons_self y ys, hRy⟩
      have hniys : ¬ (i < N ∧ ∃ x ∈ ys, R x i) := by
        rintro ⟨hi, x, hx, hRx⟩
        exact hni ⟨hi, x, List.mem_cons_of_mem y hx, hRx⟩
      rw [h2f i hniys, h1f i hniy]

theorem matrix_add_unoptimized_kspec (N bd b t : Nat) (A B : List ℚ)
    (hA : A.length = N) (hB : B.length = N) :
    KSpec N A B (fun i => i = b * bd + t) (fun m => matrix_add_unoptimized N bd b t m) := by
  intro m hma hmb hmc
  by_cases hg : b * bd + t < N
  · have hga : b * bd + t < m.a.length := by rw [hma, hA]; exact hg
    have hgb : b * bd + t < m.b.length := by rw [hmb, hB]; exact hg
    have hgc : b * bd + t < m.c.length := by rw [hmc]; exact hg
    refine ⟨{ m with c := m.c.set (b * bd + t) (addAt A B (b * bd + t)) }, ?_, hma, hmb, ?_,
      ?_, ?_⟩
    · simp only [matrix_add_unoptimized]
      rw [if_pos hg, list_get?_lt m.a _ hga, list_get?_lt m.b _ hgb]
      simp only [writeC, if_pos hgc]
      rw [hma, hmb]
      rfl
    · simp only [List.length_set]
      exact hmc
    · rintro i hi rfl
      exact List.get?_set_eq_of_lt _ hgc
    · intro i hni
      have hne : b * bd + t ≠ i := by
        rintro rfl
        exact hni ⟨hg, rfl⟩
      exact List.get?_set_ne _ _ hne
  · refine ⟨m, ?_, hma, hmb, hmc, ?_, fun i _ => rfl⟩
    · simp only [matrix_add_unoptimized]
      rw [if_neg hg]
    · rintro i hi rfl
      exact absurd hi hg

theorem runUnoptBlock_kspec (N bd b : Nat) (A B : List ℚ)
    (hA : A.length = N) (hB : B.length = N) :
    KSpec N A B (fun i => ∃ t ∈ List.range bd, i = b * bd + t) (runUnoptBlock N bd b) :=
  kspec_foldlM N A B (fun t i => i = b * bd + t)
    (fun s t => matrix_add_unoptimized N bd b t s) (List.range bd)
    (fun t _ => matrix_add_unoptimized_kspec N bd b t A B hA hB)

theorem launchUnopt_kspec (N bd gs : Nat) (A B : List ℚ)
    (hA : A.length = N) (hB : B.length = N) :
    KSpec N A B (fun i => ∃ b2 ∈ List.range gs, ∃ t ∈ List.range bd, i = b2 * bd + t)
      (launchUnopt N bd gs) :=
  kspec_foldlM N A B (fun b2 i => ∃ t ∈ List.range bd, i = b2 * bd + t)
    (fun s b2 => runUnoptBlock N bd b2 s) (List.range gs)
    (fun b2 _ => runUnoptBlock_kspec N bd b2 A B hA hB)

theorem grid_covers (bd gs N i : Nat) (hbd : 0 < bd) (hiN : i < N) (hcov : N ≤ gs * bd) :
    ∃ b2 ∈ List.range gs, ∃ t ∈ List.range bd, i = b2 * bd + t := by
  refine ⟨i / bd, List.mem_range.mpr ?_, i % bd,
    List.mem_range.mpr (Nat.mod_lt _ hbd), ?_⟩
  · exact (Nat.div_lt_iff_lt_mul hbd).mpr (lt_of_lt_of_le hiN hcov)
  · have h := Nat.div_add_mod i bd
    rw [mul_comm] at h
    exact h.symm

theorem ceil_mul_ge (N bd : Nat) (hbd : 0 < bd) : N ≤ (N + bd - 1) / bd * bd := by
  cases N with
  | zero => simp
  | succ n =>
    have he : (n + 1 + bd - 1) / bd = n / bd + 1 := by
      have h : n + 1 + bd - 1 = n + bd := by omega
      rw [h, Nat.add_div_right n hbd]
    rw [he, add_mul, one_mul]
    have h1 := Nat.div_add_mod n bd
    rw [mul_comm] at h1
    have h2 : n % bd + 1 ≤ bd := Nat.mod_lt n hbd
    calc n + 1 = n / bd * bd + (n % bd + 1) := by rw [← Nat.add_assoc, h1]
      _ ≤ n / bd * bd + bd := Nat.add_le_add_left h2 _

end Cuda

namespace Cuda

theorem shared_load_spec (N bd b : Nat) (A B : List ℚ) (hA : A.length = N)
    (hB : B.length = N) (m : Mem) (hma : m.a = A) (hmb : m.b = B) :
    ∀ (ts : List Nat) (sh0 : Shared),
      (∀ t ∈ ts, t < sh0.shared_a.length ∧ t < sh0.shared_b.length) →
      ∃ sh : Shared,
        List.foldlM (fun s t => matrix_add_shared_memory_load N bd b t m s) sh0 ts
          = Except.ok sh ∧
        sh.shared_a.length = sh0.shared_a.length ∧
        sh.shared_b.length = sh0.shared_b.length ∧
        (∀ t ∈ ts, b * bd + t < N →
          sh.shared_a.get? t = some (A.getD (b * bd + t) 0) ∧
          sh.shared_b.get? t = some (B.getD (b * bd + t) 0)) ∧
        (∀ t, t ∉ ts →
          sh.shared_a.get? t = sh0.shared_a.get? t ∧
          sh.shared_b.get? t = sh0.shared_b.get? t) := by
  intro ts
  induction ts with
  | nil =>
    intro sh0 _
    refine ⟨sh0, rfl, rfl, rfl, ?_, fun t _ => ⟨rfl, rfl⟩⟩
    intro t ht
    exact absurd ht (List.not_mem_nil t)
  | cons t0 rest ih =>
    intro sh0 hts
    by_cases hg : b * bd + t0 < N
    · have hga : b * bd + t0 < m.a.length := by rw [hma, hA]; exact hg
      have hgb : b * bd + t0 < m.b.length := by rw [hmb, hB]; exact hg
      obtain ⟨h0a, h0b⟩ := hts t0 (List.mem_cons_self t0 rest)
      have hstep : matrix_add_shared_memory_load N bd b t0 m sh0
          = Except.ok ⟨sh0.shared_a.set t0 (m.a.getD (b * bd + t0) 0),
              sh0.shared_b.set t0 (m.b.getD (b * bd + t0) 0)⟩ := by
        simp only [matrix_add_shared_memory_load]
        rw [if_pos hg, list_get?_lt m.a _ hga, list_get?_lt m.b _ hgb]
        exact if_pos ⟨h0a, h0b⟩
      obtain ⟨sh, hsh, hlena, hlenb, hval, hfr⟩ :=
        ih ⟨sh0.shared_a.set t0 (m.a.getD (b * bd + t0) 0),
            sh0.shared_b.set t0 (m.b.getD (b * bd + t0) 0)⟩
          (by
            intro t ht
            have h2 := hts t (List.mem_cons_of_mem t0 ht)
            constructor
            · show t < (sh0.shared_a.set t0 _).length
              rw [List.length_set]
              exact h2.1
            · show t < (sh0.shared_b.set t0 _).length
              rw [List.length_set]
              exact h2.2)
      refine ⟨sh, ?_, ?_, ?_, ?_, ?_⟩
      · rw [List.foldlM_cons, hstep, gpum_bind_ok]
        exact hsh
      · rw [hlena]
        show (sh0.shared_a.set t0 _).length = _
        rw [List.length_set]
      · rw [hlenb]
        show (sh0.shared_b.set t0 _).length = _
        rw [List.length_set]
      · intro t ht hact
        by_cases hrest : t ∈ rest
        · exact hval t hrest hact
        · have ht0 : t = t0 := by
            rcases List.mem_cons.mp ht with h | h
            · exact h
            · exact absurd h hrest
          subst ht0
          obtain ⟨hfa, hfb⟩ := hfr t hrest
          constructor
          · rw [hfa]
            show (sh0.shared_a.set t (m.a.getD (b * bd + t) 0)).get? t = _
            rw [List.get?_set_eq_of_lt _ h0a, hma]
          · rw [hfb]
            show (sh0.shared_b.set t (m.b.getD (b * bd + t) 0)).get? t = _
            rw [List.get?_set_eq_of_lt _ h0b, hmb]
      · intro t ht
        have hne : t0 ≠ t := by
          rintro rfl
          exact ht (List.mem_cons_self t0 rest)
        have hnr : t ∉ rest := fun h => ht (List.mem_cons_of_mem t0 h)
        obtain ⟨hfa, hfb⟩ := hfr t hnr
        constructor
        · rw [hfa]
          exact List.get?_set_ne _ _ hne
        · rw [hfb]
          exact List.get?_set_ne _ _ hne
    · have hstep : matrix_add_shared_memory_load N bd b t0 m sh0 = Except.ok sh0 := by
        simp only [matrix_add_shared_memory_load]
        rw [if_neg hg]
      obtain ⟨sh, hsh, hlena, hlenb, hval, hfr⟩ :=
        ih sh0 (fun t ht => hts t (List.mem_cons_of_mem t0 ht))
      refine ⟨sh, ?_, hlena, hlenb, ?_, ?_⟩
      · rw [List.foldlM_cons, hstep, gpum_bind_ok]
        exact hsh
      · intro t ht hact
        rcases List.mem_cons.mp ht with rfl | hrest
        · exact absurd hact hg
        · exact hval t hrest hact
      · intro t ht
        exact hfr t (fun h => ht (List.mem_cons_of_mem t0 h))

theorem matrix_add_shared_memory_store_kspec (N bd b t : Nat) (A B : List ℚ) (sh : Shared)
    (hval : b * bd + t < N →
      sh.shared_a.get? t = some (A.getD (b * bd + t) 0) ∧
      sh.shared_b.get? t = some (B.getD (b * bd + t) 0)) :
    KSpec N A B (fun i => i = b * bd + t)
      (fun m => matrix_add_shared_memory_store N bd b t sh m) := by
  intro m hma hmb hmc
  by_cases hg : b * bd + t < N
  · obtain ⟨hsa, hsb⟩ := hval hg
    have hgc : b * bd + t < m.c.length := by rw [hmc]; exact hg
    refine ⟨{ m with c := m.c.set (b * bd + t) (addAt A B (b * bd + t)) }, ?_, hma, hmb,
      ?_, ?_, ?_⟩
    · simp only [matrix_add_shared_memory_store]
      rw [if_pos hg, hsa, hsb]
      simp only [writeC, if_pos hgc]
      rfl
    · simp only [List.length_set]
      exact hmc
    · rintro i hi rfl
      exact List.get?_set_eq_of_lt _ hgc
    · intro i hni
      have hne : b * bd + t ≠ i := by
        rintro rfl
        exact hni ⟨hg, rfl⟩
      exact List.get?_set_ne _ _ hne
  · refine ⟨m, ?_, hma, hmb, hmc, ?_, fun i _ => rfl⟩
    · simp only [matrix_add_shared_memory_store]
      rw [if_neg hg]
    · rintro i hi rfl
      exact absurd hi hg

theorem runSharedBlock_kspec (N bd b : Nat) (A B : List ℚ)
    (hA : A.length = N) (hB : B.length = N) (hbd : bd ≤ sharedDecl) :
    KSpec N A B (fun i => ∃ t ∈ List.range bd, i = b * bd + t) (runSharedBlock N bd b) := by
  intro m hma hmb hmc
  obtain ⟨sh, hsh, hlena, hlenb, hval, _⟩ :=
    shared_load_spec N bd b A B hA hB m hma hmb (List.range bd)
      ⟨List.replicate sharedDecl 0, List.replicate sharedDecl 0⟩
      (by
        intro t ht
        have htbd : t < bd := List.mem_range.mp ht
        constructor
        · show t < (List.replicate sharedDecl (0 : ℚ)).length
          rw [List.length_replicate]
          exact lt_of_lt_of_le htbd hbd
        · show t < (List.replicate sharedDecl (0 : ℚ)).length
          rw [List.length_replicate]
          exact lt_of_lt_of_le htbd hbd)
  obtain ⟨mf, hmf, hfa, hfb, hfc, hfv, hff⟩ :=
    kspec_foldlM N A B (fun t i => i = b * bd + t)
      (fun s t => matrix_add_shared_memory_store N bd b t sh s) (List.range bd)
      (fun t ht => matrix_add_shared_memory_store_kspec N bd b t A B sh (hval t ht))
      m hma hmb hmc
  refine ⟨mf, ?_, hfa, hfb, hfc, hfv, hff⟩
  show runSharedBlock N bd b m = Except.ok mf
  simp only [runSharedBlock]
  rw [hsh]
  exact hmf

theorem launchShared_kspec (N bd gs : Nat) (A B : List ℚ)
    (hA : A.length = N) (hB : B.length = N) (hbd : bd ≤ sharedDecl) :
    KSpec N A B (fun i => ∃ b2 ∈ List.range gs, ∃ t ∈ List.range bd, i = b2 * bd + t)
      (launchShared N bd gs) :=
  kspec_foldlM N A B (fun b2 i => ∃ t ∈ List.range bd, i = b2 * bd + t)
    (fun s b2 => runSharedBlock N bd b2 s) (List.range gs)
    (fun b2 _ => runSharedBlock_kspec N bd b2 A B hA hB hbd)

end Cuda

namespace Cuda

theorem matrix_add_unoptimized_pres (N bd b t : Nat) (s s2 : Mem)
    (h : matrix_add_unoptimized N bd b t s = Except.ok s2) : s2.a = s.a ∧ s2.b = s.b := by
  simp only [matrix_add_unoptimized] at h
  by_cases hg : b * bd + t < N
  · rw [if_pos hg] at h
    cases ha : s.a.get? (b * bd + t) with
    | none =>
      rw [ha] at h
      cases hb : s.b.get? (b * bd + t) with
      | none => rw [hb] at h; exact Except.noConfusion h
      | some y => rw [hb] at h; exact Except.noConfusion h
    | some x =>
      rw [ha] at h
      cases hb : s.b.get? (b * bd + t) with
      | none => rw [hb] at h; exact Except.noConfusion h
      | some y =>
        rw [hb] at h
        simp only [writeC] at h
        by_cases hc : b * bd + t < s.c.length
        · rw [if_pos hc] at h
          injection h with h2
          rw [← h2]
          exact ⟨rfl, rfl⟩
        · rw [if_neg hc] at h
          exact Except.noConfusion h
  · rw [if_neg hg] at h
    injection h with h2
    rw [← h2]
    exact ⟨rfl, rfl⟩

theorem matrix_add_unoptimized_err (N bd b t : Nat) (s : Mem) (e : GpuError)
    (h : matrix_add_unoptimized N bd b t s = Except.error e) :
    e = GpuError.OutOfBoundsAccess := by
  simp only [matrix_add_unoptimized] at h
  by_cases hg : b * bd + t < N
  · rw [if_pos hg] at h
    cases ha : s.a.get? (b * bd + t) with
    | none =>
      rw [ha] at h
      cases hb : s.b.get? (b * bd + t) with
      | none => rw [hb] at h; injection h with h2; exact h2.symm
      | some y => rw [hb] at h; injection h with h2; exact h2.symm
    | some x =>
      rw [ha] at h
      cases hb : s.b.get? (b * bd + t) with
      | none => rw [hb] at h; injection h with h2; exact h2.symm
      | some y =>
        rw [hb] at h
        simp only [writeC] at h
        by_cases hc : b * bd + t < s.c.length
        · rw [if_pos hc] at h
          exact Except.noConfusion h
        · rw [if_neg hc] at h
          injection h with h2
          exact h2.symm
  · rw [if_neg hg] at h
    exact Except.noConfusion h

theorem runUnoptBlock_pres (N bd b : Nat) (s s2 : Mem)
    (h : runUnoptBlock N bd b s = Except.ok s2) : s2.a = s.a ∧ s2.b = s.b :=
  foldlM_ok_pres (fun x => x.a = s.a ∧ x.b = s.b)
    (fun u t => matrix_add_unoptimized N bd b t u)
    (fun u t u2 hu hok =>
      ⟨(matrix_add_unoptimized_pres N bd b t u u2 hok).1.trans hu.1,
       (matrix_add_unoptimized_pres N bd b t u u2 hok).2.trans hu.2⟩)
    (List.range bd) s s2 ⟨rfl, rfl⟩ h

theorem runUnoptBlock_err (N bd b : Nat) (s : Mem) (e : GpuError)
    (h : runUnoptBlock N bd b s = Except.error e) : e = GpuError.OutOfBoundsAccess :=
  foldlM_error_imp (fun u t => matrix_add_unoptimized N bd b t u)
    (fun u t e2 h2 => matrix_add_unoptimized_err N bd b t u e2 h2)
    (List.range bd) s e h

theorem launchUnopt_pres (N bd gs : Nat) (s s2 : Mem)
    (h : launchUnopt N bd gs s = Except.ok s2) : s2.a = s.a ∧ s2.b = s.b :=
  foldlM_ok_pres (fun x => x.a = s.a ∧ x.b = s.b)
    (fun u b => runUnoptBlock N bd b u)
    (fun u b u2 hu hok =>
      ⟨(runUnoptBlock_pres N bd b u u2 hok).1.trans hu.1,
       (runUnoptBlock_pres N bd b u u2 hok).2.trans hu.2⟩)
    (List.range gs) s s2 ⟨rfl, rfl⟩ h

theorem matrix_add_shared_memory_load_err (N bd b t : Nat) (m : Mem) (sh : Shared)
    (e : GpuError)
    (h : matrix_add_shared_memory_load N bd b t m sh = Except.error e) :
    e = GpuError.OutOfBoundsAccess := by
  simp only [matrix_add_shared_memory_load] at h
  by_cases hg : b * bd + t < N
  · rw [if_pos hg] at h
    cases ha : m.a.get? (b * bd + t) with
    | none =>
      rw [ha] at h
      cases hb : m.b.get? (b * bd + t) with
      | none => rw [hb] at h; injection h with h2; exact h2.symm
      | some y => rw [hb] at h; injection h with h2; exact h2.symm
    | some x =>
      rw [ha] at h
      cases hb : m.b.get? (b * bd + t) with
      | none => rw [hb] at h; injection h with h2; exact h2.symm
      | some y =>
        rw [hb] at h
        have h2 : (if t < sh.shared_a.length ∧ t < sh.shared_b.length then
              (Except.ok ⟨sh.shared_a.set t x, sh.shared_b.set t y⟩ : GpuM Shared)
            else Except.error GpuError.OutOfBoundsAccess) = Except.error e := h
        by_cases hsh : t < sh.shared_a.length ∧ t < sh.shared_b.length
        · rw [if_pos hsh] at h2
          exact Except.noConfusion h2
        · rw [if_neg hsh] at h2
          injection h2 with h3
          exact h3.symm
  · rw [if_neg hg] at h
    exact Except.noConfusion h

theorem matrix_add_shared_memory_load_pres_len (N bd b t : Nat) (m : Mem) (sh sh2 : Shared)
    (h : matrix_add_shared_memory_load N bd b t m sh = Except.ok sh2) :
    sh2.shared_a.length = sh.shared_a.length ∧ sh2.shared_b.length = sh.shared_b.length := by
  simp only [matrix_add_shared_memory_load] at h
  by_cases hg : b * bd + t < N
  · rw [if_pos hg] at h
    cases ha : m.a.get? (b * bd + t) with
    | none =>
      rw [ha] at h
      cases hb : m.b.get? (b * bd + t) with
      | none => rw [hb] at h; exact Except.noConfusion h
      | some y => rw [hb] at h; exact Except.noConfusion h
    | some x =>
      rw [ha] at h
      cases hb : m.b.get? (b * bd + t) with
      | none => rw [hb] at h; exact Except.noConfusion h
      | some y =>
        rw [hb] at h
        have h2 : (if t < sh.shared_a.length ∧ t < sh.shared_b.length then
              (Except.ok ⟨sh.shared_a.set t x, sh.shared_b.set t y⟩ : GpuM Shared)
            else Except.error GpuError.OutOfBoundsAccess) = Except.ok sh2 := h
        by_cases hsh : t < sh.shared_a.length ∧ t < sh.shared_b.length
        · rw [if_pos hsh] at h2
          injection h2 with h3
          rw [← h3]
          constructor
          · show (sh.shared_a.set t x).length = _
            rw [List.length_set]
          · show (sh.shared_b.set t y).length = _
            rw [List.length_set]
        · rw [if_neg hsh] at h2
          exact Except.noConfusion h2
  · rw [if_neg hg] at h
    injection h with h2
    rw [← h2]
    exact ⟨rfl, rfl⟩

theorem matrix_add_shared_memory_load_fail (N bd b t : Nat) (m : Mem) (sh : Shared)
    (hg : b * bd + t < N) (hta : sh.shared_a.length ≤ t) :
    matrix_add_shared_memory_load N bd b t m sh = Except.error GpuError.OutOfBoundsAccess := by
  simp only [matrix_add_shared_memory_load]
  rw [if_pos hg]
  cases ha : m.a.get? (b * bd + t) with
  | none =>
    cases hb : m.b.get? (b * bd + t) with
    | none => rfl
    | some y => rfl
  | some x =>
    cases hb : m.b.get? (b * bd + t) with
    | none => rfl
    | some y =>
      exact if_neg (fun hc => absurd hc.1 (Nat.not_lt.mpr hta))

theorem matrix_add_shared_memory_store_pres (N bd b t : Nat) (sh : Shared) (s s2 : Mem)
    (h : matrix_add_shared_memory_store N bd b t sh s = Except.ok s2) :
    s2.a = s.a ∧ s2.b = s.b := by
  simp only [matrix_add_shared_memory_store] at h
  by_cases hg : b * bd + t < N
  · rw [if_pos hg] at h
    cases ha : sh.shared_a.get? t with
    | none =>
      rw [ha] at h
      cases hb : sh.shared_b.get? t with
      | none => rw [hb] at h; exact Except.noConfusion h
      | some y => rw [hb] at h; exact Except.noConfusion h
    | some x =>
      rw [ha] at h
      cases hb : sh.shared_b.get? t with
      | none => rw [hb] at h; exact Except.noConfusion h
      | some y =>
        rw [hb] at h
        simp only [writeC] at h
        by_cases hc : b * bd + t < s.c.length
        · rw [if_pos hc] at h
          injection h with h2
          rw [← h2]
          exact ⟨rfl, rfl⟩
        · rw [if_neg hc] at h
          exact Except.noConfusion h
  · rw [if_neg hg] at h
    injection h with h2
    rw [← h2]
    exact ⟨rfl, rfl⟩

theorem runSharedBlock_pres (N bd b : Nat) (s s2 : Mem)
    (h : runSharedBlock N bd b s = Except.ok s2) : s2.a = s.a ∧ s2.b = s.b := by
  simp only [runSharedBlock] at h
  cases hload : List.foldlM (fun u t => matrix_add_shared_memory_load N bd b t s u)
      (⟨List.replicate sharedDecl 0, List.replicate sharedDecl 0⟩ : Shared)
      (List.range bd) with
  | error e =>
    rw [hload] at h
    exact Except.noConfusion h
  | ok sh =>
    rw [hload] at h
    exact foldlM_ok_pres (fun x => x.a = s.a ∧ x.b = s.b)
      (fun u t => matrix_add_shared_memory_store N bd b t sh u)
      (fun u t u2 hu hok =>
        ⟨(matrix_add_shared_memory_store_pres N bd b t sh u u2 hok).1.trans hu.1,
         (matrix_add_shared_memory_store_pres N bd b t sh u u2 hok).2.trans hu.2⟩)
      (List.range bd) s s2 ⟨rfl, rfl⟩ h

theorem launchShared_pres (N bd gs : Nat) (s s2 : Mem)
    (h : launchShared N bd gs s = Except.ok s2) : s2.a = s.a ∧ s2.b = s.b :=
  foldlM_ok_pres (fun x => x.a = s.a ∧ x.b = s.b)
    (fun u b => runSharedBlock N bd b u)
    (fun u b u2 hu hok =>
      ⟨(runSharedBlock_pres N bd b u u2 hok).1.trans hu.1,
       (runSharedBlock_pres N bd b u u2 hok).2.trans hu.2⟩)
    (List.range gs) s s2 ⟨rfl, rfl⟩ h

end Cuda

namespace Cuda

/-- C9: under the 256-thread block configuration of Steps 1 and 2 the
naive kernel and the shared-memory kernel compute the same function:
both launches succeed on length-`N` buffers, produce the same final
memory, and leave `c[i] = a[i] + b[i]` at every index `i < N`. -/
theorem add_kernels_equivalent (N gs : Nat) (m : Mem) (hgs : gs = (N + 256 - 1) / 256)
    (hA : m.a.length = N) (hB : m.b.length = N) (hC : m.c.length = N) :
    ∃ mf : Mem, launchUnopt N 256 gs m = Except.ok mf ∧
      launchShared N 256 gs m = Except.ok mf ∧
      ∀ i, i < N → mf.c.get? i = some (m.a.getD i 0 + m.b.getD i 0) := by
  have hcov : N ≤ gs * 256 := by
    rw [hgs]
    exact ceil_mul_ge N 256 (by norm_num)
  obtain ⟨m1, h1, h1a, h1b, h1c, h1v, h1f⟩ :=
    launchUnopt_kspec N 256 gs m.a m.b hA hB m rfl rfl hC
  obtain ⟨m2, h2, h2a, h2b, h2c, h2v, h2f⟩ :=
    launchShared_kspec N 256 gs m.a m.b hA hB (by norm_num [sharedDecl]) m rfl rfl hC
  have hceq : m1.c = m2.c := by
    apply List.ext_get?
    intro n
    by_cases hn : n < N
    · rw [h1v n hn (grid_covers 256 gs N n (by norm_num) hn hcov),
        h2v n hn (grid_covers 256 gs N n (by norm_num) hn hcov)]
    · rw [h1f n (fun hc => hn hc.1), h2f n (fun hc => hn hc.1)]
  have hm : m1 = m2 := Mem.ext (h1a.trans h2a.symm) (h1b.trans h2b.symm) hceq
  refine ⟨m1, h1, ?_, ?_⟩
  · rw [hm]
    exact h2
  · intro i hi
    rw [h1v i hi (grid_covers 256 gs N i (by norm_num) hi hcov)]
    rfl

/-- C9 (witness): the equivalence applied to concrete two-element
buffers under the Step 1 and 2 grid computation. -/
theorem add_kernels_equivalent_witness :
    ∃ mf : Mem, launchUnopt 2 256 1 ⟨[1, 2], [3, 4], [0, 0]⟩ = Except.ok mf ∧
      launchShared 2 256 1 ⟨[1, 2], [3, 4], [0, 0]⟩ = Except.ok mf ∧
      ∀ i, i < 2 → mf.c.get? i = some ((⟨[1, 2], [3, 4], [0, 0]⟩ : Mem).a.getD i 0
        + (⟨[1, 2], [3, 4], [0, 0]⟩ : Mem).b.getD i 0) :=
  add_kernels_equivalent 2 1 ⟨[1, 2], [3, 4], [0, 0]⟩ (by decide) rfl rfl rfl

/-- C10: with `grid_size = (N + block_size - 1) / block_size` and the
`gid < N` guard, the unoptimized launch covers the whole input: every
index `i < N` is written by exactly one thread of the grid, every
device-memory index a thread touches is below `N`, and the launch
succeeds on buffers of length exactly `N`, writing `a[i] + b[i]` at
every `i < N` and leaving indices at or beyond `N` unchanged. -/
theorem launchUnopt_covers (N bd gs : Nat) (m : Mem) (hbd : 0 < bd)
    (hgs : gs = (N + bd - 1) / bd) (hA : m.a.length = N) (hB : m.b.length = N)
    (hC : m.c.length = N) :
    (∀ i, i < N → (writerSet N bd gs i).card = 1) ∧
    (∀ b t j, j ∈ threadAccesses N bd b t → j < N) ∧
    ∃ mf : Mem, launchUnopt N bd gs m = Except.ok mf ∧
      (∀ i, i < N → mf.c.get? i = some (m.a.getD i 0 + m.b.getD i 0)) ∧
      (∀ i, N ≤ i → mf.c.get? i = m.c.get? i) := by
  have hcov : N ≤ gs * bd := by
    rw [hgs]
    exact ceil_mul_ge N bd hbd
  refine ⟨?_, ?_, ?_⟩
  · intro i hi
    have hset : writerSet N bd gs i = {(i / bd, i % bd)} := by
      ext th
      simp only [writerSet, Finset.mem_filter, Finset.mem_product, Finset.mem_range,
        Finset.mem_singleton]
      constructor
      · rintro ⟨⟨hb2, ht2⟩, heq, _⟩
        have hdiv : i / bd = th.1 := by
          rw [← heq, Nat.add_comm, mul_comm, Nat.add_mul_div_left _ _ hbd,
            Nat.div_eq_of_lt ht2, Nat.zero_add]
        have hmod : i % bd = th.2 := by
          rw [← heq, Nat.add_comm, mul_comm, Nat.add_mul_mod_self_left,
            Nat.mod_eq_of_lt ht2]
        exact Prod.ext_iff.mpr ⟨hdiv.symm, hmod.symm⟩
      · rintro rfl
        refine ⟨⟨?_, Nat.mod_lt _ hbd⟩, ?_, hi⟩
        · exact (Nat.div_lt_iff_lt_mul hbd).mpr (lt_of_lt_of_le hi hcov)
        · have h := Nat.div_add_mod i bd
          rw [mul_comm] at h
          exact h
    rw [hset]
    exact Finset.card_singleton _
  · intro b t j hj
    simp only [threadAccesses] at hj
    by_cases hg : b * bd + t < N
    · rw [if_pos hg] at hj
      rw [List.mem_singleton.mp hj]
      exact hg
    · rw [if_neg hg] at hj
      exact absurd hj (List.not_mem_nil j)
  · obtain ⟨mf, hmf, _, _, _, hv, hf⟩ :=
      launchUnopt_kspec N bd gs m.a m.b hA hB m rfl rfl hC
    refine ⟨mf, hmf, ?_, ?_⟩
    · intro i hi
      rw [hv i hi (grid_covers bd gs N i hbd hi hcov)]
      rfl
    · intro i hi
      exact hf i (fun hc => absurd hc.1 (Nat.not_lt.mpr hi))

/-- C10 (witness): the coverage theorem applied to concrete buffers. -/
theorem launchUnopt_covers_witness :
    (∀ i, i < 2 → (writerSet 2 1 2 i).card = 1) ∧
    (∀ b t j, j ∈ threadAccesses 2 1 b t → j < 2) ∧
    ∃ mf : Mem, launchUnopt 2 1 2 ⟨[1, 2], [3, 4], [0, 0]⟩ = Except.ok mf ∧
      (∀ i, i < 2 → mf.c.get? i = some ((⟨[1, 2], [3, 4], [0, 0]⟩ : Mem).a.getD i 0
        + (⟨[1, 2], [3, 4], [0, 0]⟩ : Mem).b.getD i 0)) ∧
      (∀ i, 2 ≤ i → mf.c.get? i = (⟨[1, 2], [3, 4], [0, 0]⟩ : Mem).c.get? i) :=
  launchUnopt_covers 2 1 2 ⟨[1, 2], [3, 4], [0, 0]⟩ (by decide) (by decide) rfl rfl rfl

end Cuda

namespace Cuda

/-- C7 (counterexample): a kernel launch overwrites the caller's output
array `c`: on `a = [1]`, `b = [2]`, `c = [0]` the unoptimized launch
leaves `c = [3]`, so it is not the case that every caller array holds
the same values after a timed call as before it. -/
theorem launch_overwrites_output :
    launchUnopt 1 1 1 ⟨[1], [2], [0]⟩ = Except.ok ⟨[1], [2], [3]⟩ ∧
    (⟨[1], [2], [3]⟩ : Mem).c ≠ (⟨[1], [2], [0]⟩ : Mem).c := by
  constructor
  · norm_num [launchUnopt, runUnoptBlock, matrix_add_unoptimized, writeC, List.foldlM]
  · norm_num

end Cuda

namespace Cuda

/-- C7 (amended): the operand arrays are read-only to the kernels: any
successful launch of either kernel leaves `a` and `b` exactly as they
were; only the output buffer `c` is written. -/
theorem launches_preserve_operands (N bd gs : Nat) (m mf1 mf2 : Mem) :
    (launchUnopt N bd gs m = Except.ok mf1 → mf1.a = m.a ∧ mf1.b = m.b) ∧
    (launchShared N bd gs m = Except.ok mf2 → mf2.a = m.a ∧ mf2.b = m.b) :=
  ⟨fun h => launchUnopt_pres N bd gs m mf1 h,
   fun h => launchShared_pres N bd gs m mf2 h⟩

/-- C7 (witness): the preservation theorem applied to a concrete launch
of each kernel. -/
theorem launches_preserve_operands_witness :
    ((⟨[1], [2], [3]⟩ : Mem).a = (⟨[1], [2], [0]⟩ : Mem).a ∧
     (⟨[1], [2], [3]⟩ : Mem).b = (⟨[1], [2], [0]⟩ : Mem).b) ∧
    ((⟨[1], [2], [3]⟩ : Mem).a = (⟨[1], [2], [0]⟩ : Mem).a ∧
     (⟨[1], [2], [3]⟩ : Mem).b = (⟨[1], [2], [0]⟩ : Mem).b) :=
  ⟨(launches_preserve_operands 1 1 1 ⟨[1], [2], [0]⟩ ⟨[1], [2], [3]⟩ ⟨[1], [2], [3]⟩).1
      (by norm_num [launchUnopt, runUnoptBlock, matrix_add_unoptimized, writeC, List.foldlM]),
   (launches_preserve_operands 1 1 1 ⟨[1], [2], [0]⟩ ⟨[1], [2], [3]⟩ ⟨[1], [2], [3]⟩).2
      (by norm_num [launchShared, runSharedBlock, matrix_add_shared_memory_load,
        matrix_add_shared_memory_store, writeC, sharedDecl, List.foldlM])⟩

end Cuda

namespace Cuda

/-- C4 (counterexample): running the add kernel on mismatched-length
operands (`a` of length 2, `b` of length 1, `N = 2`) does not raise
`ShapeMismatch`: no shape validation exists anywhere in the kernels or
their launch code, and the run instead performs an out-of-bounds read
of the short operand. -/
theorem mismatched_add_not_shape_mismatch :
    launchUnopt 2 1 2 ⟨[1, 2], [5], [0, 0]⟩ = Except.error GpuError.OutOfBoundsAccess ∧
    (Except.error GpuError.OutOfBoundsAccess : GpuM Mem)
      ≠ Except.error GpuError.ShapeMismatch := by
  constructor
  · norm_num [launchUnopt, runUnoptBlock, matrix_add_unoptimized, writeC, List.foldlM,
      gpum_bind_ok]
  · intro h
    injection h with h2
    exact GpuError.noConfusion h2

/-- C4 (amended): running the unoptimized add with an operand shorter
than `N` aborts with an out-of-bounds access (undefined behavior in
real CUDA), not with a `ShapeMismatch` error: the kernel reads the
short operand past its end at global id `b.length`. -/
theorem launchUnopt_mismatched_oob (N bd gs : Nat) (m : Mem) (hbd : 0 < bd)
    (hgs : gs = (N + bd - 1) / bd) (hblen : m.b.length < N) :
    launchUnopt N bd gs m = Except.error GpuError.OutOfBoundsAccess := by
  have hcov : N ≤ gs * bd := by
    rw [hgs]
    exact ceil_mul_ge N bd hbd
  have hgid : m.b.length / bd * bd + m.b.length % bd = m.b.length := by
    have h := Nat.div_add_mod m.b.length bd
    rw [mul_comm] at h
    exact h
  have hthread : ∀ s : Mem, s.b = m.b →
      matrix_add_unoptimized N bd (m.b.length / bd) (m.b.length % bd) s
        = Except.error GpuError.OutOfBoundsAccess := by
    intro s hs
    have hbn : s.b.get? (m.b.length / bd * bd + m.b.length % bd) = none := by
      rw [hgid, hs]
      exact List.get?_eq_none.mpr (Nat.le_refl _)
    simp only [matrix_add_unoptimized]
    rw [if_pos (by rw [hgid]; exact hblen)]
    cases ha : s.a.get? (m.b.length / bd * bd + m.b.length % bd) with
    | none => rw [hbn]
    | some x => rw [hbn]
  have hblock : ∀ s : Mem, s.b = m.b →
      runUnoptBlock N bd (m.b.length / bd) s = Except.error GpuError.OutOfBoundsAccess := by
    intro s hs
    exact foldlM_error_of_mem (fun x => x.b = m.b)
      (fun u t => matrix_add_unoptimized N bd (m.b.length / bd) t u)
      (m.b.length % bd) GpuError.OutOfBoundsAccess
      (fun u t u2 hu hok =>
        ((matrix_add_unoptimized_pres N bd (m.b.length / bd) t u u2 hok).2).trans hu)
      (fun u t e2 _ herr2 => matrix_add_unoptimized_err N bd (m.b.length / bd) t u e2 herr2)
      (fun u hu => hthread u hu)
      (List.range bd) s (List.mem_range.mpr (Nat.mod_lt _ hbd)) hs
  show List.foldlM (fun s b => runUnoptBlock N bd b s) m (List.range gs)
      = Except.error GpuError.OutOfBoundsAccess
  exact foldlM_error_of_mem (fun x => x.b = m.b)
    (fun u b => runUnoptBlock N bd b u)
    (m.b.length / bd) GpuError.OutOfBoundsAccess
    (fun u b u2 hu hok => ((runUnoptBlock_pres N bd b u u2 hok).2).trans hu)
    (fun u b e2 _ herr2 => runUnoptBlock_err N bd b u e2 herr2)
    (fun u hu => hblock u hu)
    (List.range gs) m
    (List.mem_range.mpr ((Nat.div_lt_iff_lt_mul hbd).mpr (lt_of_lt_of_le hblen hcov)))
    rfl

/-- C4 (witness): the amended theorem applied to concrete buffers with
a short second operand. -/
theorem launchUnopt_mismatched_oob_witness :
    launchUnopt 3 2 2 ⟨[1, 2, 3], [4], [0, 0, 0]⟩
      = Except.error GpuError.OutOfBoundsAccess :=
  launchUnopt_mismatched_oob 3 2 2 ⟨[1, 2, 3], [4], [0, 0, 0]⟩ (by decide) (by decide)
    (by decide)

end Cuda

namespace Cuda

/-- C8: the Step 3 launch of `matrix_add_shared_memory` uses block size
512 while the kernel declares `shared_a` and `shared_b` with 256
entries, so thread 256 of the first block already accesses shared
memory out of bounds: the launch faults instead of staying within the
declared bounds, for any contents of device memory. -/
theorem step3_shared_memory_out_of_bounds (m : Mem) :
    launchShared notebookN 512 ((notebookN + 512 - 1) / 512) m
      = Except.error GpuError.OutOfBoundsAccess := by
  have hblock : runSharedBlock notebookN 512 0 m
      = Except.error GpuError.OutOfBoundsAccess := by
    have hfold : List.foldlM (fun sh t => matrix_add_shared_memory_load notebookN 512 0 t m sh)
        (⟨List.replicate sharedDecl 0, List.replicate sharedDecl 0⟩ : Shared)
        (List.range 512) = Except.error GpuError.OutOfBoundsAccess := by
      apply foldlM_error_of_mem
        (fun sh : Shared => sh.shared_a.length = sharedDecl ∧ sh.shared_b.length = sharedDecl)
        (fun sh t => matrix_add_shared_memory_load notebookN 512 0 t m sh)
        256 GpuError.OutOfBoundsAccess
        (fun sh t sh2 hp hok =>
          ⟨((matrix_add_shared_memory_load_pres_len notebookN 512 0 t m sh sh2 hok).1).trans
              hp.1,
           ((matrix_add_shared_memory_load_pres_len notebookN 512 0 t m sh sh2 hok).2).trans
              hp.2⟩)
        (fun sh t e2 _ he =>
          matrix_add_shared_memory_load_err notebookN 512 0 t m sh e2 he)
        (fun sh hp =>
          matrix_add_shared_memory_load_fail notebookN 512 0 256 m sh
            (by norm_num [notebookN]) (le_of_eq hp.1))
        (List.range 512) _ (List.mem_range.mpr (by norm_num))
        ⟨List.length_replicate _ _, List.length_replicate _ _⟩
    simp only [runSharedBlock]
    rw [hfold]
  have hgs : (notebookN + 512 - 1) / 512 = 2048 := by norm_num [notebookN]
  have h2048 : (2048 : Nat) = 2047 + 1 := by norm_num
  show List.foldlM (fun s b => runSharedBlock notebookN 512 b s) m
      (List.range ((notebookN + 512 - 1) / 512)) = Except.error GpuError.OutOfBoundsAccess
  rw [hgs, h2048, List.range_succ_eq_map, List.foldlM_cons, hblock, gpum_bind_error]

/-- C8 (witness): the out-of-bounds fault evaluated at a concrete
device memory. -/
theorem step3_shared_memory_out_of_bounds_witness :
    launchShared notebookN 512 ((notebookN + 512 - 1) / 512) ⟨[], [], []⟩
      = Except.error GpuError.OutOfBoundsAccess :=
  step3_shared_memory_out_of_bounds ⟨[], [], []⟩

end Cuda
